import Mathlib

/-!
Verification of the Consul DNS request router and response-assembly pipeline.

The repository fragment under study contains the router's test suite
(`agent/dns` package tests) but not the router implementation itself, so the
router, its label parser, composers, extra-record synchronizer, truncation
engine and TTL lookup are modelled from the natural-language specification,
with every behaviour that the test suite pins down reproduced exactly as the
tests expect it.
-/

namespace Dns

/-- Lower-case an ASCII character (DNS names are ASCII). -/
def charLower (c : Char) : Char :=
  if c.isUpper then Char.ofNat (c.toNat + 32) else c

/-- Lower-case a DNS label or name, character by character. -/
def strLower (s : String) : String := String.mk (s.data.map charLower)

/-- Join a label list into a fully-qualified (trailing-dot) name string. -/
def joinName (ls : List String) : String :=
  ls.foldr (fun l acc => l ++ "." ++ acc) ""

/-- DNS record types used by the router (class is always INET and omitted). -/
inductive RType where
  | a | aaaa | srv | ptr | cname | soa | ns | any
deriving Repr, DecidableEq

/-- Type-specific record payloads.  Addresses are kept as raw byte lists
(4 bytes for IPv4, 16 for IPv6), exactly what the hex decoding of an
`addr`/`virtual` label produces. -/
inductive RData where
  | a (ip : List Nat)
  | aaaa (ip : List Nat)
  | srv (priority weight port : Nat) (target : String)
  | cname (target : String)
  | ptr (target : String)
  | soa (nsName mbox : String) (serial refresh retry expire minttl : Nat)
  | ns (host : String)
deriving Repr, DecidableEq

/-- A resource record: owner name, type, TTL and payload. -/
structure RR where
  name : String
  rtype : RType
  ttl : Nat
  rdata : RData
deriving Repr, DecidableEq

/-- DNS response codes (numeric values from RFC 1035). -/
def rcodeSuccess : Nat := 0
def rcodeServerFailure : Nat := 2
def rcodeNameError : Nat := 3
def rcodeRefused : Nat := 5

/-- The message header: opcode, flags and response code. -/
structure Header where
  opcode : Nat
  response : Bool
  authoritative : Bool
  rcode : Nat
  recursionAvailable : Bool
deriving Repr, DecidableEq

/-- The question section: the queried name as a label list plus a flag
recording whether the name was written fully qualified (trailing dot). -/
structure Question where
  qlabels : List String
  fqdn : Bool
  qtype : RType
deriving Repr, DecidableEq

/-- The DNS envelope: header, question, the three record sections and the
compression-allowed flag. -/
structure Msg where
  header : Header
  compress : Bool
  question : Question
  answer : List RR
  ns : List RR
  extra : List RR
deriving Repr, DecidableEq

/-! ## Extra-record synchronizer

Modelled from the spec: builds a case-insensitive index from a record's
owning name to the record (first-write-wins per name) and, for each answer,
walks CNAME chains through the index emitting each visited record once. -/

/-- The extra-record index: association list from case-folded owner name to
record.  Lookup takes the first match, so mapping every record to its key
gives first-write-wins semantics for duplicate names. -/
def indexRRs (rrs : List RR) : List (String × RR) :=
  rrs.map (fun rr => (strLower rr.name, rr))

/-- First-match lookup in the extra-record index. -/
def lookupIdx : List (String × RR) → String → Option RR
  | [], _ => none
  | (k, rr) :: rest, t => if k = t then some rr else lookupIdx rest t

/-- Modelled from the spec: the target name of an answer record — the record
itself for address records, the `Target`/`Ptr` field for SRV/CNAME/PTR
records; other answer kinds start no chain. -/
def answerTarget (rr : RR) : Option String :=
  match rr.rdata with
  | .srv _ _ _ t => some t
  | .cname t => some t
  | .ptr t => some t
  | .a _ => some rr.name
  | .aaaa _ => some rr.name
  | _ => none

/-- One chain walk of the synchronizer: starting from a (case-folded) target
name, repeatedly look the name up in the index; a hit is emitted and, when it
is a CNAME, the walk continues at its target; a miss or a name already
resolved stops the walk.  The walk terminates because every continuing step
marks a fresh index key as resolved, so fuel `index.length + 1` can never be
exhausted; fuel only makes the recursion structural. -/
def resolveChain (idx : List (String × RR)) :
    Nat → List String → List RR → String → List String × List RR
  | 0, resolved, extra, _ => (resolved, extra)
  | fuel + 1, resolved, extra, target =>
    if target ∈ resolved then (resolved, extra)
    else
      let resolved' := target :: resolved
      match lookupIdx idx target with
      | none => (resolved', extra)
      | some rr =>
        match rr.rdata with
        | .cname t => resolveChain idx fuel resolved' (extra ++ [rr]) (strLower t)
        | _ => (resolved', extra ++ [rr])

/-- Modelled from the spec: rebuild the additional section from the answer
section and the extra-record index.  Each answer's chain is walked in order;
the resolved-name set is shared across answers so no record is emitted twice;
records never referenced from any answer's chain are dropped.  Only the
`extra` section of the message is replaced. -/
def syncExtra (idx : List (String × RR)) (msg : Msg) : Msg :=
  let step := fun (acc : List String × List RR) (ans : RR) =>
    match answerTarget ans with
    | none => acc
    | some t => resolveChain idx (idx.length + 1) acc.1 acc.2 (strLower t)
  let res := msg.answer.foldl step ([], [])
  { msg with extra := res.2 }

/-! ## Truncation engine

Modelled from the spec: a serialized-size estimate (uncompressed wire size)
and the binary-search truncation that keeps the largest prefix of the answer
section whose size, after resynchronizing the additional section, fits the
byte budget. -/

/-- Wire length of an encoded name: its characters plus the root label. -/
def nameLen (s : String) : Nat := s.data.length + 1

/-- Wire length of a record's type-specific payload. -/
def rdLen : RData → Nat
  | .a _ => 4
  | .aaaa _ => 16
  | .srv _ _ _ t => 6 + nameLen t
  | .cname t => nameLen t
  | .ptr t => nameLen t
  | .soa n m _ _ _ _ _ => nameLen n + nameLen m + 20
  | .ns h => nameLen h

/-- Wire length of one resource record (owner name, fixed header, payload). -/
def rrLen (rr : RR) : Nat := nameLen rr.name + 10 + rdLen rr.rdata

/-- Wire length of the question section. -/
def qLen (q : Question) : Nat :=
  (joinName q.qlabels).data.length + 1 + 4

/-- Modelled from the spec: serialized size of a whole message (header is 12
bytes); an empty question contributes nothing, matching a message whose
question section was never set. -/
def msgLen (m : Msg) : Nat :=
  12 + (if m.question.qlabels = [] then 0 else qLen m.question)
    + ((m.answer ++ m.ns ++ m.extra).map rrLen).sum

/-- The message obtained by keeping the first `k` answers and, when the
caller asked for it, resynchronizing the additional section to match. -/
def resyncAt (msg : Msg) (idx : List (String × RR)) (hasExtra : Bool) (k : Nat) : Msg :=
  let m := { msg with answer := msg.answer.take k }
  if hasExtra then syncExtra idx m else m

/-- Scan downward for the largest prefix length `≤ n` whose resynchronized
serialization fits the budget; 0 when none fits. -/
def bestFit (msg : Msg) (idx : List (String × RR)) (hasExtra : Bool) (maxSize : Nat) :
    Nat → Nat
  | 0 => 0
  | k + 1 =>
    if msgLen (resyncAt msg idx hasExtra (k + 1)) ≤ maxSize then k + 1
    else bestFit msg idx hasExtra maxSize k

/-- Modelled from the spec: binary search over the number of leading answer
records to keep (0..original count) for the largest prefix whose serialized
size — after resynchronizing the additional section — does not exceed the
budget.  The search's specified result is exactly that largest fitting
prefix length, which this definition computes directly. -/
def dnsBinaryTruncate (msg : Msg) (maxSize : Nat) (idx : List (String × RR))
    (hasExtra : Bool) : Nat :=
  bestFit msg idx hasExtra maxSize msg.answer.length

/-! ## Label parser helpers: hex ids, reverse-lookup labels, IP text forms -/

/-- Value of one hexadecimal digit, lower or upper case. -/
def hexVal (c : Char) : Option Nat :=
  if '0' ≤ c ∧ c ≤ '9' then some (c.toNat - '0'.toNat)
  else if 'a' ≤ c ∧ c ≤ 'f' then some (c.toNat - 'a'.toNat + 10)
  else if 'A' ≤ c ∧ c ≤ 'F' then some (c.toNat - 'A'.toNat + 10)
  else none

/-- Decode an even-length hex character list into bytes. -/
def hexBytes : List Char → Option (List Nat)
  | [] => some []
  | [_] => none
  | hi :: lo :: rest =>
    match hexVal hi, hexVal lo, hexBytes rest with
    | some h, some l, some bs => some ((h * 16 + l) :: bs)
    | _, _, _ => none

/-- Decode the hex id of an `addr.`/`virtual.` label into raw address bytes. -/
def hexDecode (s : String) : Option (List Nat) := hexBytes s.data

/-- Decimal value of a character list (no sign, at least one digit). -/
def decVal : List Char → Option Nat
  | [] => none
  | cs =>
    cs.foldl (fun acc c =>
      acc.bind (fun n =>
        if '0' ≤ c ∧ c ≤ '9' then some (n * 10 + (c.toNat - '0'.toNat)) else none))
      (some 0)

/-- Decode one reverse-lookup octet label: decimal, in range 0–255. -/
def decodeOctet (s : String) : Option Nat :=
  match decVal s.data with
  | some n => if n ≤ 255 then some n else none
  | none => none

/-- Decode one reverse-lookup nibble label: a single hex digit. -/
def decodeNibble (s : String) : Option Nat :=
  match s.data with
  | [c] => hexVal c
  | _ => none

/-- Traverse a list of options, failing when any entry fails. -/
def collectSome {α β : Type} (f : α → Option β) : List α → Option (List β)
  | [] => some []
  | x :: xs =>
    match f x, collectSome f xs with
    | some b, some bs => some (b :: bs)
    | _, _ => none

/-- Pair up a nibble list (most-significant first) into bytes. -/
def nibblePairs : List Nat → List Nat
  | hi :: lo :: rest => (hi * 16 + lo) :: nibblePairs rest
  | _ => []

/-- An IP address with its family made explicit. -/
inductive IPAddr where
  | v4 (bytes : List Nat)
  | v6 (bytes : List Nat)
deriving Repr, DecidableEq

/-- Split a character list at every occurrence of the separator. -/
def splitChar (sep : Char) : List Char → List (List Char)
  | [] => [[]]
  | c :: cs =>
    let rest := splitChar sep cs
    if c = sep then [] :: rest
    else
      match rest with
      | g :: gs => (c :: g) :: gs
      | [] => [[c]]

/-- Parse a dotted-decimal IPv4 text form into its 4 bytes. -/
def parseIPv4 (s : String) : Option (List Nat) :=
  match collectSome (fun g => decodeOctet (String.mk g)) (splitChar '.' s.data) with
  | some bs => if bs.length = 4 then some bs else none
  | none => none

/-- Parse one colon-separated IPv6 group (1–4 hex digits) into a 16-bit word. -/
def parseHexGroup (g : List Char) : Option Nat :=
  if g.length = 0 ∨ 4 < g.length then none
  else g.foldl (fun acc c => acc.bind (fun n => (hexVal c).map (fun v => n * 16 + v)))
    (some 0)

/-- Parse an IPv6 text form (with at most one `::` zero run) into 16 bytes. -/
def parseIPv6 (s : String) : Option (List Nat) :=
  let gs := splitChar ':' s.data
  let toWords := fun (l : List (List Char)) => collectSome parseHexGroup l
  let front := gs.takeWhile (fun g => g ≠ [])
  let back := (gs.reverse.takeWhile (fun g => g ≠ [])).reverse
  let words :=
    if gs.length = 8 ∧ front.length = 8 then toWords gs
    else if front.length + back.length + 1 ≤ gs.length ∧ front.length + back.length ≤ 7
        ∧ (gs.drop front.length).take (gs.length - front.length - back.length)
            = List.replicate (gs.length - front.length - back.length) [] then
      match toWords front, toWords back with
      | some wf, some wb =>
        some (wf ++ List.replicate (8 - wf.length - wb.length) 0 ++ wb)
      | _, _ => none
    else none
  words.map (fun ws => (ws.map (fun w => [w / 256, w % 256])).flatten)

/-- Parse the textual address reported by the catalog backend, classifying
its family the way the runtime does (a colon marks an IPv6 form). -/
def parseIP (s : String) : Option IPAddr :=
  if s.data.contains ':' then (parseIPv6 s).map IPAddr.v6
  else (parseIPv4 s).map IPAddr.v4

/-! ## Configuration, query intents and the catalog backend capability -/

/-- Tenancy coordinates extracted from a query name. -/
structure Tenancy where
  ns : String := ""
  ap : String := ""
  dc : String := ""
deriving Repr, DecidableEq

/-- Immutable per-process router configuration.  TTLs and durations are in
abstract units; `ttlOverrides` is the ordered (pattern, duration) table with
exact or trailing-wildcard patterns. -/
structure RouterConfig where
  domain : List String
  altDomain : List String := []
  nodeTTL : Nat := 0
  soaRefresh : Nat := 0
  soaRetry : Nat := 0
  soaExpire : Nat := 0
  soaMinttl : Nat := 0
  recursors : List String := []
  ttlOverrides : List (String × Nat) := []
  udpAnswerLimit : Nat := 0
  maxUdpSize : Nat := 512
deriving Repr, DecidableEq

/-- Parsed classification of a query name. -/
inductive QueryIntent where
  | addr (bytes : List Nat)
  | virtualIP (bytes : List Nat)
  | workload (name portName : String) (ten : Tenancy)
  | service (name : String) (ten : Tenancy) (md : List String)
  | node (name : String) (ten : Tenancy) (md : List String)
  | soaQ (md : List String)
  | nsQ (md : List String)
  | ptrQ (ip : List Nat)
  | foreign
  | malformed
deriving Repr, DecidableEq

/-- Strip a non-empty domain suffix from a label list, returning the labels
before the suffix. -/
def stripSuffixLabels (dom ls : List String) : Option (List String) :=
  if dom ≠ [] ∧ dom.isSuffixOf ls then some (ls.take (ls.length - dom.length))
  else none

/-- Match the owned domain, then the alternate domain, against the query
name; returns the matched domain and the remaining leading labels. -/
def stripOwned (cfg : RouterConfig) (ls : List String) :
    Option (List String × List String) :=
  match stripSuffixLabels cfg.domain ls with
  | some rest => some (cfg.domain, rest)
  | none =>
    match stripSuffixLabels cfg.altDomain ls with
    | some rest => some (cfg.altDomain, rest)
    | none => none

/-- Parse the optional trailing `<dc>.dc` tenancy segment. -/
def parseDcPart : List String → Option String
  | [] => some ""
  | [v, "dc"] => some v
  | _ => none

/-- Parse the optional `<ap>.ap` segment followed by the dc segment. -/
def parseApPart : List String → Option (String × String)
  | v :: "ap" :: rest => (parseDcPart rest).map (fun dc => (v, dc))
  | rest => (parseDcPart rest).map (fun dc => ("", dc))

/-- Parse the order-fixed optional tenancy labels `[ns].[ap].[dc]`. -/
def parseTenancy : List String → Option Tenancy
  | v :: "ns" :: rest =>
    (parseApPart rest).map (fun p => { ns := v, ap := p.1, dc := p.2 })
  | rest => (parseApPart rest).map (fun p => { ns := "", ap := p.1, dc := p.2 })

/-- Classify an `addr.`/`virtual.` hex id: exactly 4 or 16 decoded bytes is
an address, anything else is Malformed. -/
def classifyHexId (hx : String) (mk : List Nat → QueryIntent) : QueryIntent :=
  match hexDecode hx with
  | some b => if b.length = 4 ∨ b.length = 16 then mk b else .malformed
  | none => .malformed

/-- Classify the labels remaining after the owned-domain suffix was
stripped. -/
def parseOwned (md rest : List String) (qt : RType) : QueryIntent :=
  match rest with
  | [] =>
    if qt = .soa then .soaQ md
    else if qt = .ns then .nsQ md
    else .malformed
  | [hx, "addr"] => classifyHexId hx .addr
  | [hx, "addr", _] => classifyHexId hx .addr
  | [hx, "virtual"] => classifyHexId hx .virtualIP
  | [hx, "virtual", _] => classifyHexId hx .virtualIP
  | n :: "service" :: ten =>
    match parseTenancy ten with
    | some t => .service n t md
    | none => .malformed
  | n :: "node" :: ten =>
    match parseTenancy ten with
    | some t => .node n t md
    | none => .malformed
  | n :: "workload" :: ten =>
    match parseTenancy ten with
    | some t => .workload n "" t
    | none => .malformed
  | p :: "port" :: n :: "workload" :: ten =>
    match parseTenancy ten with
    | some t => .workload n p t
    | none => .malformed
  | _ => .malformed

/-- Classify a name under the `arpa` pseudo-domain: decode reversed octet or
nibble labels into an IP; any malformed encoding is Malformed. -/
def parseArpa (ls : List String) : QueryIntent :=
  if ls.reverse.take 2 = ["arpa", "in-addr"] then
    let pre := ls.dropLast.dropLast
    if pre.length = 4 then
      match collectSome decodeOctet pre with
      | some os => .ptrQ os.reverse
      | none => .malformed
    else .malformed
  else if ls.reverse.take 2 = ["arpa", "ip6"] then
    let pre := ls.dropLast.dropLast
    if pre.length = 32 then
      match collectSome decodeNibble pre with
      | some nb => .ptrQ (nibblePairs nb.reverse)
      | none => .malformed
    else .malformed
  else .malformed

/-- Modelled from the spec: the Label Parser.  Strips and validates the
owned/alternate domain and pattern-matches the remaining labels; names under
`arpa` are reverse lookups; everything else is foreign (recursor).  The
classification is a total function — Malformed is an ordinary outcome, never
an error. -/
def parseQuery (cfg : RouterConfig) (ls : List String) (qt : RType) : QueryIntent :=
  match stripOwned cfg ls with
  | some (md, rest) => parseOwned md rest qt
  | none =>
    if ls.getLast? = some "arpa" then parseArpa ls else .foreign

/-! ## Per-service TTL lookup -/

/-- The stem of a trailing-wildcard pattern, when the pattern has one. -/
def stripStar (p : String) : Option String :=
  match p.data.getLast? with
  | some c => if c = '*' then some (String.mk p.data.dropLast) else none
  | none => none

/-- Look a service name up among the exact (non-wildcard) patterns. -/
def lookupExact : List (String × Nat) → String → Option Nat
  | [], _ => none
  | (p, d) :: rest, n =>
    if stripStar p = none ∧ p = n then some d else lookupExact rest n

/-- Length of a wildcard pattern's stem when its stem starts the name. -/
def wildMatch (n p : String) : Option Nat :=
  match stripStar p with
  | some pre => if pre.data.isPrefixOf n.data then some pre.data.length else none
  | none => none

/-- The matching wildcard pattern with the longest stem (stem length, TTL);
an earlier table entry wins ties, matching a radix tree's unique keys. -/
def bestWild : List (String × Nat) → String → Option (Nat × Nat)
  | [], _ => none
  | (p, d) :: rest, n =>
    let r := bestWild rest n
    match wildMatch n p with
    | none => r
    | some len =>
      match r with
      | none => some (len, d)
      | some (len', d') => if len < len' then some (len', d') else some (len, d)

/-- Modelled from the spec: per-service TTL lookup over the TTL-override
table — an exact-match pattern wins; otherwise the longest matching
trailing-wildcard pattern (stem comparison after stripping the trailing
star) wins; no match returns the zone default TTL with a not-found flag. -/
def getTTLForService (cfg : RouterConfig) (n : String) : Nat × Bool :=
  match lookupExact cfg.ttlOverrides n with
  | some d => (d, true)
  | none =>
    match bestWild cfg.ttlOverrides n with
    | some (_, d) => (d, true)
    | none => (cfg.nodeTTL, false)

/-! ## Catalog backend capability and the recursor capability -/

/-- Failure signals from the catalog backend: the distinguished no-data
outcome versus every other failure. -/
inductive BackendErr where
  | noData
  | other
deriving Repr, DecidableEq

/-- A named location (node or service) with its reported address text. -/
structure Location where
  name : String := ""
  address : String := ""
deriving Repr, DecidableEq

/-- The kind tag of a catalog result. -/
inductive ResultType where
  | node | workload | virtualT
deriving Repr, DecidableEq

/-- One answer unit from the catalog backend. -/
structure Result where
  node : Option Location := none
  service : Option Location := none
  rtype : ResultType
  tenancy : Tenancy := {}
  portName : String := ""
  portNumber : Nat := 0
deriving Repr, DecidableEq

/-- The lookup kind passed to fetch-by-name. -/
inductive LookupKind where
  | service | node
deriving Repr, DecidableEq

/-- The catalog backend capability consumed by the composers. -/
structure Backend where
  fetchEndpoints : String → Tenancy → LookupKind → Except BackendErr (List Result)
  fetchWorkload : String → String → Except BackendErr Result
  fetchRecordsByIp : List Nat → Except BackendErr (List Result)
  fetchVirtualIP : List Nat → Except BackendErr Result

/-- The recursor capability: forwards the original request upstream and
either relays a message or fails (recursion-failed and any other upstream
error produce the same wire response, so one error token suffices). -/
def Recursor : Type := Msg → Except Unit Msg

/-! ## Response composition -/

/-- The parts of a response the router still has to wrap in a header:
response code, authoritative flag and the three record sections. -/
structure RespCore where
  rcode : Nat := rcodeSuccess
  authoritative : Bool := true
  answer : List RR := []
  authority : List RR := []
  extra : List RR := []
deriving Repr, DecidableEq

/-- The zone SOA record synthesized from configuration; the serial is
derived from the current time, passed in as `now`. -/
def soaRR (cfg : RouterConfig) (md : List String) (now : Nat) : RR :=
  { name := joinName md
    rtype := .soa
    ttl := cfg.soaMinttl
    rdata := .soa ("ns." ++ joinName md) ("hostmaster." ++ joinName md)
      now cfg.soaRefresh cfg.soaRetry cfg.soaExpire cfg.soaMinttl }

/-- Malformed-Name outcome: authoritative NXDOMAIN with the zone SOA in the
authority section. -/
def nxdomainCore (cfg : RouterConfig) (now : Nat) : RespCore :=
  { rcode := rcodeNameError, authority := [soaRR cfg cfg.domain now] }

/-- No-Data outcome: authoritative success, empty answer, zone SOA in the
authority section — never NXDOMAIN for an empty-but-valid lookup. -/
def noDataCore (cfg : RouterConfig) (now : Nat) : RespCore :=
  { rcode := rcodeSuccess, authority := [soaRR cfg cfg.domain now] }

/-- Backend-Failure outcome: a server-failure response code. -/
def servfailCore : RespCore :=
  { rcode := rcodeServerFailure, authoritative := false }

/-- An address record of the family the raw bytes dictate. -/
def addressRR (name : String) (ttl : Nat) : IPAddr → RR
  | .v4 b => { name := name, rtype := .a, ttl := ttl, rdata := .a b }
  | .v6 b => { name := name, rtype := .aaaa, ttl := ttl, rdata := .aaaa b }

/-- Whether the question type asks for the family of this address (ANY asks
for both). -/
def wantsFamily (qt : RType) : IPAddr → Bool
  | .v4 _ => qt = .a ∨ qt = .any
  | .v6 _ => qt = .aaaa ∨ qt = .any

/-- View the raw decoded bytes of an `addr.`/`virtual.` hex id as an
address: 4 bytes are IPv4, anything else IPv6 (the parser only passes 4 or
16). -/
def bytesToIP (b : List Nat) : IPAddr :=
  if b.length = 4 then .v4 b else .v6 b

/-- Modelled from the spec: the Addr composer needs no backend call — the
address is embedded in the name.  The record answers the question when its
family was requested (or ANY); whichever family was not requested is
attached as an additional record instead. -/
def addrCore (cfg : RouterConfig) (qn : String) (qt : RType) (b : List Nat) : RespCore :=
  let ip := bytesToIP b
  let rr := addressRR qn cfg.nodeTTL ip
  if wantsFamily qt ip then { answer := [rr] } else { extra := [rr] }

/-- Modelled from the spec and the pinned test expectations: the VirtualIP
composer resolves the decoded id through the backend.  A result address of
the requested family (or ANY) is the answer; an SRV question gets the
address attached as an additional record; a result address of the other
family produces the no-data outcome (authoritative success with the zone
SOA in authority), as the test for an A query over an IPv6 virtual address
requires; an unparseable result address is treated as no usable answer. -/
def virtualCore (cfg : RouterConfig) (backend : Backend) (now : Nat)
    (qn : String) (qt : RType) (b : List Nat) : RespCore :=
  match backend.fetchVirtualIP b with
  | .error .noData => noDataCore cfg now
  | .error .other => servfailCore
  | .ok r =>
    match r.node with
    | none => noDataCore cfg now
    | some loc =>
      match parseIP loc.address with
      | none => noDataCore cfg now
      | some ip =>
        let rr := addressRR qn cfg.nodeTTL ip
        if wantsFamily qt ip then { answer := [rr] }
        else if qt = .srv then { extra := [rr] }
        else noDataCore cfg now

/-- Qualify a backend-reported name: append the trailing dot when the
backend wrote it unqualified. -/
def qualifyName (s : String) : String :=
  if s.data.getLast? = some '.' then s else s ++ "."

/-- Recognize a Virtual-alias target of the form `<svc>.service.<domain>`
and recover the service name and tenancy it aliases — the spec's recursive
alias resolution re-enters the service lookup on that name. -/
def aliasServiceName (cfg : RouterConfig) (addr : String) : Option (String × Tenancy) :=
  let ls := (splitChar '.' addr.data).map (fun g => String.mk g)
  let ls := if ls.getLast? = some "" then ls.dropLast else ls
  match parseQuery cfg (ls.map strLower) .srv with
  | .service n ten _ => some (n, ten)
  | _ => none

/-- Modelled from the spec: recursive resolution through Virtual-type
alias results to the final target's address.  The spec guarantees the
backend-provided result graph terminates, so the model bounds the
unfolding with fuel; every continuing step is one backend hop. -/
def resolveAliasAddr (cfg : RouterConfig) (backend : Backend) :
    Nat → String → Tenancy → Option IPAddr
  | 0, _, _ => none
  | fuel + 1, n, ten =>
    match backend.fetchEndpoints n ten .service with
    | .error _ => none
    | .ok [] => none
    | .ok (r :: _) =>
      match r.rtype with
      | .virtualT =>
        match r.service with
        | none => none
        | some sloc =>
          match aliasServiceName cfg sloc.address with
          | some p => resolveAliasAddr cfg backend fuel p.1 p.2
          | none => none
      | _ => r.node.bind (fun loc => parseIP loc.address)

/-- The bound on alias-resolution depth (the spec's termination guarantee
for the backend result graph, made explicit in the model). -/
def maxAliasDepth : Nat := 8

/-- Modelled from the spec: SRV synthesis for one backend result.  A
Virtual-type result representing an alias yields an SRV answer targeting
the alias name and, after recursively resolving the alias, the final
target's address record as an additional record; any other result yields
an SRV answer targeting the synthesized node name with its address record
attached. -/
def srvRecFor (cfg : RouterConfig) (backend : Backend) (qn : String)
    (ttlS : Nat) (r : Result) : List RR × List RR :=
  match r.rtype with
  | .virtualT =>
    match r.service with
    | none => ([], [])
    | some sloc =>
      let target := qualifyName sloc.address
      let ans : List RR :=
        [{ name := qn, rtype := .srv, ttl := ttlS, rdata := .srv 1 0 0 target }]
      let ext : List RR :=
        match aliasServiceName cfg sloc.address with
        | some p =>
          match resolveAliasAddr cfg backend maxAliasDepth p.1 p.2 with
          | some ip => [addressRR target ttlS ip]
          | none => []
        | none => []
      (ans, ext)
  | _ =>
    match r.node with
    | none => ([], [])
    | some loc =>
      let target := loc.name ++ ".node."
        ++ (if r.tenancy.dc = "" then "" else r.tenancy.dc ++ ".")
        ++ joinName cfg.domain
      let ans : List RR :=
        [{ name := qn, rtype := .srv, ttl := ttlS, rdata := .srv 1 0 0 target }]
      let ext : List RR :=
        match parseIP loc.address with
        | some ip => [addressRR target ttlS ip]
        | none => []
      (ans, ext)

/-- Modelled from the spec: the usable address of one backend result — its
reported node address when that parses as an IP; otherwise, for a
Virtual-type alias, the address obtained by recursively resolving the
alias to its final target; otherwise nothing (no usable answer for that
item). -/
def resultIP (cfg : RouterConfig) (backend : Backend) (r : Result) : Option IPAddr :=
  match r.node with
  | none => none
  | some loc =>
    match parseIP loc.address with
    | some ip => some ip
    | none =>
      match r.rtype with
      | .virtualT =>
        match r.service with
        | none => none
        | some sloc =>
          match aliasServiceName cfg sloc.address with
          | some p => resolveAliasAddr cfg backend maxAliasDepth p.1 p.2
          | none => none
      | _ => none

/-- Family-split record placement for one resolved result address. -/
def addrRecFor (cfg : RouterConfig) (backend : Backend) (qn : String)
    (ttlS : Nat) (qt : RType) (r : Result) : List RR × List RR :=
  match resultIP cfg backend r with
  | none => ([], [])
  | some ip =>
    let rr := addressRR qn ttlS ip
    if wantsFamily qt ip then ([rr], []) else ([], [rr])

/-- Map backend results to records named after the query: SRV synthesis
with alias resolution for SRV questions, family-split address records
otherwise. -/
def serviceRecords (cfg : RouterConfig) (backend : Backend) (qn : String)
    (ttlS : Nat) (qt : RType) (results : List Result) : List RR × List RR :=
  results.foldr (fun r acc =>
    let p :=
      if qt = .srv then srvRecFor cfg backend qn ttlS r
      else addrRecFor cfg backend qn ttlS qt r
    (p.1 ++ acc.1, p.2 ++ acc.2)) ([], [])

/-- Modelled from the spec: the Service composer fetches endpoints by name
and materializes SRV or address records with the per-service TTL (override
table, falling back to the zone default), resolving Virtual-type aliases
recursively. -/
def serviceCore (cfg : RouterConfig) (backend : Backend) (now : Nat)
    (qn : String) (qt : RType) (n : String) (ten : Tenancy) : RespCore :=
  match backend.fetchEndpoints n ten .service with
  | .error .noData => noDataCore cfg now
  | .error .other => servfailCore
  | .ok results =>
    let p := serviceRecords cfg backend qn (getTTLForService cfg n).1 qt results
    { answer := p.1, extra := p.2 }

/-- Modelled from the spec: the Node composer — like Service, with the
configured node TTL. -/
def nodeCore (cfg : RouterConfig) (backend : Backend) (now : Nat)
    (qn : String) (qt : RType) (n : String) (ten : Tenancy) : RespCore :=
  match backend.fetchEndpoints n ten .node with
  | .error .noData => noDataCore cfg now
  | .error .other => servfailCore
  | .ok results =>
    let p := serviceRecords cfg backend qn cfg.nodeTTL qt results
    { answer := p.1, extra := p.2 }

/-- Modelled from the spec and the pinned test expectations: the Workload
composer fetches one workload by name and port.  The test suite expects the
synthesized records to carry no TTL (the zero value), not the configured
node TTL. -/
def workloadCore (cfg : RouterConfig) (backend : Backend) (now : Nat)
    (qn : String) (qt : RType) (n p : String) (_ten : Tenancy) : RespCore :=
  match backend.fetchWorkload n p with
  | .error .noData => noDataCore cfg now
  | .error .other => servfailCore
  | .ok r =>
    match r.node with
    | none => noDataCore cfg now
    | some loc =>
      match parseIP loc.address with
      | none => noDataCore cfg now
      | some ip =>
        let rr := addressRR qn 0 ip
        if wantsFamily qt ip then { answer := [rr] } else { extra := [rr] }

/-- Modelled from the spec and the pinned test expectations: the PTR
composer answers with `<node>.node.<dc>.<domain>.` pointer records; the
tests expect these to carry no TTL (the zero value). -/
def ptrCore (cfg : RouterConfig) (backend : Backend) (now : Nat)
    (qn : String) (ip : List Nat) : RespCore :=
  match backend.fetchRecordsByIp ip with
  | .error .noData => noDataCore cfg now
  | .error .other => servfailCore
  | .ok results =>
    let answers := results.filterMap (fun r =>
      r.node.map (fun loc =>
        ({ name := qn, rtype := .ptr, ttl := 0
           rdata := .ptr (loc.name ++ ".node." ++ r.tenancy.dc ++ "."
             ++ joinName cfg.domain) } : RR)))
    { answer := answers }

/-- NS records (one per backend-reported server, named
`<server>.workload.<matched-domain>.`) for the SOA/NS composer. -/
def nsRecordsFor (cfg : RouterConfig) (md : List String) (results : List Result) :
    List RR :=
  results.filterMap (fun r =>
    r.node.map (fun loc =>
      ({ name := joinName md, rtype := .ns, ttl := cfg.nodeTTL
         rdata := .ns (loc.name ++ ".workload." ++ joinName md) } : RR)))

/-- The resolved A records backing the synthesized NS records. -/
def nsExtraFor (cfg : RouterConfig) (md : List String) (results : List Result) :
    List RR :=
  results.filterMap (fun r =>
    r.node.bind (fun loc => (parseIP loc.address).map
      (addressRR (loc.name ++ ".workload." ++ joinName md) cfg.nodeTTL)))

/-- Modelled from the spec: the SOA composer — SOA answer values come from
configuration with the authority zone name matching whichever domain the
query matched; NS records for the reported servers land in authority with
their A records as additional records. -/
def soaCore (cfg : RouterConfig) (backend : Backend) (now : Nat)
    (md : List String) (ten : Tenancy) : RespCore :=
  match backend.fetchEndpoints "consul" ten .service with
  | .error .noData => noDataCore cfg now
  | .error .other => servfailCore
  | .ok results =>
    { answer := [soaRR cfg md now]
      authority := nsRecordsFor cfg md results
      extra := nsExtraFor cfg md results }

/-- Modelled from the spec: the NS composer — one NS answer per reported
server with its A record attached as an additional record. -/
def nsCore (cfg : RouterConfig) (backend : Backend) (now : Nat)
    (md : List String) (ten : Tenancy) : RespCore :=
  match backend.fetchEndpoints "consul" ten .service with
  | .error .noData => noDataCore cfg now
  | .error .other => servfailCore
  | .ok results =>
    { answer := nsRecordsFor cfg md results
      extra := nsExtraFor cfg md results }

/-- Dispatch one parsed intent to its composer.  `foreign` never reaches a
composer (the router short-circuits it) and maps to the malformed outcome
only to keep this function total. -/
def composeCore (cfg : RouterConfig) (backend : Backend) (now : Nat)
    (qn : String) (qt : RType) : QueryIntent → RespCore
  | .addr b => addrCore cfg qn qt b
  | .virtualIP b => virtualCore cfg backend now qn qt b
  | .workload n p ten => workloadCore cfg backend now qn qt n p ten
  | .service n ten _ => serviceCore cfg backend now qn qt n ten
  | .node n ten _ => nodeCore cfg backend now qn qt n ten
  | .soaQ md => soaCore cfg backend now md {}
  | .nsQ md => nsCore cfg backend now md {}
  | .ptrQ ip => ptrCore cfg backend now qn ip
  | .foreign => nxdomainCore cfg now
  | .malformed => nxdomainCore cfg now

/-! ## The router -/

/-- Qualify the echoed question: the name becomes fully qualified (trailing
dot) regardless of how the query wrote it. -/
def qualifyQ (q : Question) : Question := { q with fqdn := true }

/-- The final header the router stamps on every response it composes
itself: `Response=true` and `RecursionAvailable` reflecting whether any
recursor is configured. -/
def respHeader (cfg : RouterConfig) (req : Msg) (rcode : Nat) (auth : Bool) : Header :=
  { opcode := req.header.opcode
    response := true
    authoritative := auth
    rcode := rcode
    recursionAvailable := !cfg.recursors.isEmpty }

/-- Wrap composed sections into a transport-ready message (compression on,
question echoed fully qualified). -/
def mkResponse (cfg : RouterConfig) (req : Msg) (core : RespCore) : Msg :=
  { header := respHeader cfg req core.rcode core.authoritative
    compress := true
    question := qualifyQ req.question
    answer := core.answer
    ns := core.authority
    extra := core.extra }

/-- Recursion-Unconfigured outcome: the router answers Refused itself,
echoing the question, without attempting forwarding.  The test suite pins
compression off for this response. -/
def refusedResponse (cfg : RouterConfig) (req : Msg) : Msg :=
  { header := respHeader cfg req rcodeRefused false
    compress := false
    question := qualifyQ req.question
    answer := [], ns := [], extra := [] }

/-- Recursion-Failed outcome (and any other upstream error): server failure
with `RecursionAvailable` set and compression enabled but no answer. -/
def recursionFailResponse (cfg : RouterConfig) (req : Msg) : Msg :=
  { header := respHeader cfg req rcodeServerFailure false
    compress := true
    question := qualifyQ req.question
    answer := [], ns := [], extra := [] }

/-- For datagram transport, shrink the composed message to the maximum UDP
size by binary truncation plus resynchronization of the additional
section; stream transport returns the message unchanged. -/
def finalizeTransport (cfg : RouterConfig) (isUdp : Bool) (m : Msg) : Msg :=
  if isUdp ∧ cfg.maxUdpSize < msgLen m then
    let idx := indexRRs m.extra
    resyncAt m idx true (dnsBinaryTruncate m cfg.maxUdpSize idx true)
  else m

/-- Modelled from the spec: the Router entry point.  Lower-cases the
question name for classification, invokes the Label Parser, branches on the
outcome — foreign names go to the recursor unless none is configured, in
which case the router itself answers Refused; a successfully relayed
upstream message is returned verbatim — and wraps composed sections with
the final stamped header, applying truncation for datagram transport. -/
def handleRequest (cfg : RouterConfig) (backend : Backend) (recursor : Recursor)
    (now : Nat) (isUdp : Bool) (req : Msg) : Msg :=
  let ql := req.question.qlabels.map strLower
  match parseQuery cfg ql req.question.qtype with
  | .foreign =>
    if cfg.recursors.isEmpty then refusedResponse cfg req
    else
      match recursor req with
      | .ok m => m
      | .error _ => recursionFailResponse cfg req
  | i =>
    finalizeTransport cfg isUdp
      (mkResponse cfg req (composeCore cfg backend now (joinName ql) req.question.qtype i))

/-! ## Concrete fixtures mirroring the test suite -/

/-- The default test router configuration: domain `consul`, node TTL 123
seconds, SOA parameters 1/2/3/4. -/
def testCfg : RouterConfig :=
  { domain := ["consul"], nodeTTL := 123
    soaRefresh := 1, soaRetry := 2, soaExpire := 3, soaMinttl := 4 }

/-- The test configuration with one recursor configured. -/
def testCfgRec : RouterConfig := { testCfg with recursors := ["8.8.8.8"] }

/-- A backend standing in for "call not expected": every operation fails. -/
def noBackend : Backend :=
  { fetchEndpoints := fun _ _ _ => .error .other
    fetchWorkload := fun _ _ => .error .other
    fetchRecordsByIp := fun _ => .error .other
    fetchVirtualIP := fun _ => .error .other }

/-- A recursor standing in for "call not expected". -/
def noRecursor : Recursor := fun _ => .error ()

/-- A request message with the given question and a query opcode. -/
def mkQuery (ls : List String) (qt : RType) : Msg :=
  { header := { opcode := 0, response := false, authoritative := false
                rcode := 0, recursionAvailable := false }
    compress := false
    question := { qlabels := ls, fqdn := false, qtype := qt }
    answer := [], ns := [], extra := [] }

/-- The virtual-type catalog result whose reported address is IPv6. -/
def virtualV6Result : Result :=
  { node := some { name := "", address := "2001:db8:1:2:cafe::1337" }
    rtype := .virtualT }

/-- The backend of the virtual-IP test whose reported address is IPv6. -/
def virtualV6Backend : Backend :=
  { noBackend with fetchVirtualIP := fun _ => .ok virtualV6Result }

/-- The workload catalog result: `foo` on port `api` at `1.2.3.4`. -/
def workloadFooResult : Result :=
  { node := some { name := "", address := "1.2.3.4" }
    service := some { name := "foo", address := "" }
    rtype := .workload, portName := "api", portNumber := 5678 }

/-- The backend of the workload test. -/
def workloadBackend : Backend :=
  { noBackend with fetchWorkload := fun _ _ => .ok workloadFooResult }

/-- The Virtual-type alias result of the SRV-alias test: service `alias`
aliasing `web.service.consul`. -/
def aliasVirtualResult : Result :=
  { node := some { name := "web", address := "web.service.consul" }
    service := some { name := "alias", address := "web.service.consul" }
    rtype := .virtualT }

/-- The final target of the SRV-alias test: node `webnode` at `127.0.0.2`
backing service `web`. -/
def aliasWebResult : Result :=
  { node := some { name := "webnode", address := "127.0.0.2" }
    service := some { name := "web", address := "webnode" }
    rtype := .node }

/-- The backend of the SRV-alias test: `alias` resolves to a Virtual alias
of `web.service.consul`, and `web` resolves to its concrete node. -/
def aliasBackend : Backend :=
  { noBackend with fetchEndpoints := fun n _ _ =>
      (if n = "alias" then .ok [aliasVirtualResult]
       else if n = "web" then .ok [aliasWebResult]
       else .error .other) }

/-- The upstream message of the successful-relay test: an authoritative A
answer for `google.com.` with upstream flags preserved (recursion-available
off). -/
def upstreamGoogle : Msg :=
  { header := { opcode := 0, response := true, authoritative := true
                rcode := rcodeSuccess, recursionAvailable := false }
    compress := false
    question := { qlabels := ["google", "com"], fqdn := true, qtype := .a }
    answer := [{ name := "google.com.", rtype := .a, ttl := 0
                 rdata := .a [1, 2, 3, 4] }]
    ns := [], extra := [] }

/-- A recursor that relays `upstreamGoogle` for every request. -/
def googleRecursor : Recursor := fun _ => .ok upstreamGoogle

/-- A backend reporting the no-data signal for every by-name lookup. -/
def noDataBackend : Backend :=
  { noBackend with
    fetchEndpoints := fun _ _ _ => .error .noData
    fetchWorkload := fun _ _ => .error .noData }

/-- A TTL-override table with one exact and one wildcard pattern, matching
the TTL-lookup test (`foo` → 1, `bar*` → 2). -/
def ttlCfg : RouterConfig :=
  { domain := ["consul"], ttlOverrides := [("foo", 1), ("bar*", 2)] }

/-! ## Synchronizer invariants used by the no-duplicate proof -/

/-- The case-folded owner names of a record list. -/
def lowNames (l : List RR) : List String := l.map (fun rr => strLower rr.name)

/-- The synchronizer's walk invariant: the emitted records have pairwise
distinct case-folded names, all of which have been marked resolved. -/
def SyncInv (resolved : List String) (extra : List RR) : Prop :=
  (lowNames extra).Nodup ∧ ∀ rr ∈ extra, strLower rr.name ∈ resolved

/-- An index maps each key to a record whose case-folded name is that key;
`indexRRs` produces only such indexes. -/
def IdxKeyed (idx : List (String × RR)) : Prop :=
  ∀ k rr, lookupIdx idx k = some rr → strLower rr.name = k

/-- No two records of the list agree on all of name, type and data. -/
def DistinctRRs (l : List RR) : Prop :=
  l.Pairwise (fun r1 r2 =>
    ¬(r1.name = r2.name ∧ r1.rtype = r2.rtype ∧ r1.rdata = r2.rdata))

/-- All records of a composed response, across the three sections. -/
def allRecs (c : RespCore) : List RR :=
  c.answer ++ c.authority ++ c.extra

/-! ## Truncation fixture -/

/-- A small message in the shape of the truncation test: SRV answers over a
service name with one CNAME additional record per target. -/
def truncMsg : Msg :=
  { header := { opcode := 0, response := true, authoritative := true
                rcode := 0, recursionAvailable := false }
    compress := true
    question := { qlabels := ["redis", "service", "consul"], fqdn := true, qtype := .srv }
    answer :=
      [{ name := "redis.service.consul.", rtype := .srv, ttl := 60
         rdata := .srv 0 0 19543 "host-redis-0-0.test.acme.com.node.dc1.consul." },
       { name := "redis.service.consul.", rtype := .srv, ttl := 60
         rdata := .srv 0 0 19543 "host-redis-0-1.test.acme.com.node.dc1.consul." }]
    ns := []
    extra :=
      [{ name := "host-redis-0-0.test.acme.com.node.dc1.consul.", rtype := .cname
         ttl := 60, rdata := .cname "fx.168.0.0." },
       { name := "host-redis-0-1.test.acme.com.node.dc1.consul.", rtype := .cname
         ttl := 60, rdata := .cname "fx.168.0.1." }] }

/-- The extra-record index of the truncation fixture. -/
def truncIdx : List (String × RR) := indexRRs truncMsg.extra

/-! ## Synchronizer fixtures from the test suite -/

/-- The out-of-order CNAME chain of the synchronizer test: the A record
appears before the CNAME that points at it, and one answer chain loops. -/
def syncMsg : Msg :=
  { header := { opcode := 0, response := true, authoritative := true
                rcode := 0, recursionAvailable := false }
    compress := false
    question := { qlabels := ["redis-cache-redis", "service", "consul"]
                  fqdn := true, qtype := .srv }
    answer :=
      [{ name := "redis-cache-redis.service.consul.", rtype := .srv, ttl := 0
         rdata := .srv 0 0 1003 "demo.consul.io." },
       { name := "redis-cache-redis.service.consul.", rtype := .srv, ttl := 0
         rdata := .srv 0 0 1001 "deadly.consul.io." }]
    ns := []
    extra :=
      [{ name := "fakeserver.consul.io.", rtype := .a, ttl := 0
         rdata := .a [127, 0, 0, 1] },
       { name := "demo.consul.io.", rtype := .cname, ttl := 0
         rdata := .cname "fakeserver.consul.io." },
       { name := "deadly.consul.io.", rtype := .cname, ttl := 0
         rdata := .cname "deadly.consul.io." }] }

/-- The additional section the synchronizer test expects: chain order
restored (CNAME before its target) and the self-looping CNAME emitted
exactly once. -/
def syncMsgExpectedExtra : List RR :=
  [{ name := "demo.consul.io.", rtype := .cname, ttl := 0
     rdata := .cname "fakeserver.consul.io." },
   { name := "fakeserver.consul.io.", rtype := .a, ttl := 0
     rdata := .a [127, 0, 0, 1] },
   { name := "deadly.consul.io.", rtype := .cname, ttl := 0
     rdata := .cname "deadly.consul.io." }]

/-! # Theorems -/

/-- Sanity check against the synchronizer test fixture: the model emits the
deduplicated, reordered, cycle-safe additional section the test expects. -/
theorem syncExtra_matches_fixture :
    (syncExtra (indexRRs syncMsg.extra) syncMsg).extra = syncMsgExpectedExtra := by
  decide

/-- Sanity check against the SRV-alias test: the service composer resolves
the Virtual alias, answering with an SRV record targeting the alias name
and attaching the final target's A record, both with the config-derived
123-second TTL. -/
theorem serviceAlias_matches_fixture :
    (handleRequest testCfg aliasBackend noRecursor 99 false
        (mkQuery ["alias", "service", "consul"] .srv)).answer
      = [{ name := "alias.service.consul.", rtype := .srv, ttl := 123
           rdata := .srv 1 0 0 "web.service.consul." }] ∧
    (handleRequest testCfg aliasBackend noRecursor 99 false
        (mkQuery ["alias", "service", "consul"] .srv)).extra
      = [{ name := "web.service.consul.", rtype := .a, ttl := 123
           rdata := .a [127, 0, 0, 2] }] := by
  refine ⟨rfl, rfl⟩

/-- `indexRRs` builds an index whose every hit has the looked-up key as its
case-folded owner name. -/
theorem idxKeyed_indexRRs (rrs : List RR) : IdxKeyed (indexRRs rrs) := by
  intro k rr h
  induction rrs with
  | nil => simp [indexRRs, lookupIdx] at h
  | cons x xs ih =>
    simp only [indexRRs, List.map_cons, lookupIdx] at h
    by_cases hk : strLower x.name = k
    · rw [if_pos hk] at h
      cases h
      exact hk
    · rw [if_neg hk] at h
      exact ih h

/-- One chain walk preserves the synchronizer invariant and only grows the
resolved set. -/
theorem resolveChain_inv {idx : List (String × RR)} (hidx : IdxKeyed idx) :
    ∀ (fuel : Nat) (resolved : List String) (extra : List RR) (t : String),
      SyncInv resolved extra →
      SyncInv (resolveChain idx fuel resolved extra t).1
        (resolveChain idx fuel resolved extra t).2 ∧
      ∀ s ∈ resolved, s ∈ (resolveChain idx fuel resolved extra t).1 := by
  intro fuel
  induction fuel with
  | zero => intro resolved extra t hInv; exact ⟨hInv, fun s hs => hs⟩
  | succ n ih =>
    intro resolved extra t hInv
    by_cases ht : t ∈ resolved
    · simp only [resolveChain, if_pos ht]
      exact ⟨hInv, fun s hs => hs⟩
    · simp only [resolveChain, if_neg ht]
      rcases hInv with ⟨hnd, hmem⟩
      have hnotin : t ∉ lowNames extra := by
        intro hc
        rcases List.mem_map.1 hc with ⟨rr, hrr, hname⟩
        exact ht (hname ▸ hmem rr hrr)
      cases hl : lookupIdx idx t with
      | none =>
        refine ⟨⟨hnd, fun rr hrr => List.mem_cons_of_mem _ (hmem rr hrr)⟩, ?_⟩
        intro s hs
        exact List.mem_cons_of_mem _ hs
      | some rr =>
        dsimp only
        have hkey : strLower rr.name = t := hidx t rr hl
        have hInv' : SyncInv (t :: resolved) (extra ++ [rr]) := by
          constructor
          · have : lowNames (extra ++ [rr]) = lowNames extra ++ [strLower rr.name] := by
              simp [lowNames]
            rw [this, hkey]
            exact List.Nodup.append hnd (List.nodup_singleton t)
              (by intro s hs hs'
                  rcases List.mem_singleton.1 hs' with rfl
                  exact hnotin hs)
          · intro rr' hrr'
            rcases List.mem_append.1 hrr' with h | h
            · exact List.mem_cons_of_mem _ (hmem rr' h)
            · rcases List.mem_singleton.1 h with rfl
              rw [hkey]
              exact List.mem_cons_self _ _
        cases hd : rr.rdata with
        | cname tgt =>
          rcases ih (t :: resolved) (extra ++ [rr]) (strLower tgt) hInv' with ⟨h1, h2⟩
          exact ⟨h1, fun s hs => h2 s (List.mem_cons_of_mem _ hs)⟩
        | a ip => exact ⟨hInv', fun s hs => List.mem_cons_of_mem _ hs⟩
        | aaaa ip => exact ⟨hInv', fun s hs => List.mem_cons_of_mem _ hs⟩
        | srv p w po tg => exact ⟨hInv', fun s hs => List.mem_cons_of_mem _ hs⟩
        | ptr tg => exact ⟨hInv', fun s hs => List.mem_cons_of_mem _ hs⟩
        | soa a b c d e f g => exact ⟨hInv', fun s hs => List.mem_cons_of_mem _ hs⟩
        | ns h => exact ⟨hInv', fun s hs => List.mem_cons_of_mem _ hs⟩

/-- The whole synchronizer pass, folded over the answer section, preserves
the invariant. -/
theorem syncFold_inv {idx : List (String × RR)} (hidx : IdxKeyed idx) :
    ∀ (answers : List RR) (acc : List String × List RR),
      SyncInv acc.1 acc.2 →
      SyncInv
        (answers.foldl (fun acc ans =>
          match answerTarget ans with
          | none => acc
          | some t => resolveChain idx (idx.length + 1) acc.1 acc.2 (strLower t)) acc).1
        (answers.foldl (fun acc ans =>
          match answerTarget ans with
          | none => acc
          | some t => resolveChain idx (idx.length + 1) acc.1 acc.2 (strLower t)) acc).2 := by
  intro answers
  induction answers with
  | nil => intro acc h; exact h
  | cons a rest ih =>
    intro acc h
    simp only [List.foldl_cons]
    cases answerTarget a with
    | none => exact ih acc h
    | some t =>
      exact ih _ ((resolveChain_inv hidx (idx.length + 1) acc.1 acc.2 (strLower t) h).1)

/-- The synchronized additional section has pairwise distinct case-folded
owner names. -/
theorem syncExtra_lowNames_nodup (extras : List RR) (msg : Msg) :
    (lowNames (syncExtra (indexRRs extras) msg).extra).Nodup := by
  have h := syncFold_inv (idxKeyed_indexRRs extras) msg.answer ([], [])
    ⟨List.nodup_nil, by intro rr hrr; cases hrr⟩
  exact h.1

/-- Claim C3: for every answer section and every set of candidate
additional records, the additional section produced by `syncExtra` contains
no two records with identical (name, type, data), even when the input
contains duplicates or the same record is reachable from several answers'
CNAME chains. -/
theorem syncExtra_no_duplicates (extras : List RR) (msg : Msg) :
    DistinctRRs (syncExtra (indexRRs extras) msg).extra := by
  have hnd := syncExtra_lowNames_nodup extras msg
  have hp : ((syncExtra (indexRRs extras) msg).extra).Pairwise
      (fun r1 r2 => strLower r1.name ≠ strLower r2.name) := by
    have := (List.pairwise_map (l := (syncExtra (indexRRs extras) msg).extra)
      (f := fun rr => strLower rr.name) (R := (· ≠ ·))).1
    exact this hnd
  exact hp.imp (fun {a b} hne hc => hne (by rw [hc.1]))

/-- Claim C10: `syncExtra` modifies only the additional section — the
answer section, the authority section, the header, the question and the
compression flag are unchanged. -/
theorem syncExtra_frame (idx : List (String × RR)) (msg : Msg) :
    (syncExtra idx msg).answer = msg.answer ∧
    (syncExtra idx msg).ns = msg.ns ∧
    (syncExtra idx msg).header = msg.header ∧
    (syncExtra idx msg).question = msg.question ∧
    (syncExtra idx msg).compress = msg.compress :=
  ⟨rfl, rfl, rfl, rfl, rfl⟩

/-- The truncation scan never keeps more answers than it was allowed to
consider. -/
theorem bestFit_le (msg : Msg) (idx : List (String × RR)) (he : Bool) (b : Nat) :
    ∀ n, bestFit msg idx he b n ≤ n := by
  intro n
  induction n with
  | zero => simp [bestFit]
  | succ k ih =>
    simp only [bestFit]
    split
    · exact Nat.le_refl _
    · exact Nat.le_trans ih (Nat.le_succ k)

/-- The truncation scan is monotone in the byte budget. -/
theorem bestFit_mono (msg : Msg) (idx : List (String × RR)) (he : Bool)
    {b1 b2 : Nat} (hb : b1 ≤ b2) :
    ∀ n, bestFit msg idx he b1 n ≤ bestFit msg idx he b2 n := by
  intro n
  induction n with
  | zero => simp [bestFit]
  | succ k ih =>
    simp only [bestFit]
    by_cases h1 : msgLen (resyncAt msg idx he (k + 1)) ≤ b1
    · rw [if_pos h1, if_pos (Nat.le_trans h1 hb)]
    · rw [if_neg h1]
      by_cases h2 : msgLen (resyncAt msg idx he (k + 1)) ≤ b2
      · rw [if_pos h2]
        exact Nat.le_trans (bestFit_le msg idx he b1 k) (Nat.le_succ k)
      · rw [if_neg h2]
        exact ih

/-- Whenever even the empty answer prefix fits the budget, the prefix the
scan selects fits the budget. -/
theorem bestFit_fits (msg : Msg) (idx : List (String × RR)) (he : Bool)
    {b : Nat} (h0 : msgLen (resyncAt msg idx he 0) ≤ b) :
    ∀ n, msgLen (resyncAt msg idx he (bestFit msg idx he b n)) ≤ b := by
  intro n
  induction n with
  | zero => simpa [bestFit] using h0
  | succ k ih =>
    simp only [bestFit]
    by_cases h1 : msgLen (resyncAt msg idx he (k + 1)) ≤ b
    · rwa [if_pos h1]
    · rwa [if_neg h1]

/-- Claim C2 (amended): the number of leading answers retained by
`dnsBinaryTruncate` is monotone in the byte budget, and — provided the
budget accommodates the message with every answer removed (its header,
question and authority cannot be truncated away) — the message serialized
after truncation and resynchronization never exceeds the budget. -/
theorem dnsBinaryTruncate_ok (msg : Msg) (idx : List (String × RR)) (he : Bool)
    (b b1 b2 : Nat) :
    (b1 < b2 → dnsBinaryTruncate msg b1 idx he ≤ dnsBinaryTruncate msg b2 idx he) ∧
    (msgLen (resyncAt msg idx he 0) ≤ b →
      msgLen (resyncAt msg idx he (dnsBinaryTruncate msg b idx he)) ≤ b) := by
  constructor
  · intro hb
    exact bestFit_mono msg idx he (Nat.le_of_lt hb) msg.answer.length
  · intro h0
    exact bestFit_fits msg idx he h0 msg.answer.length

/-- Witness for C2 on the truncation fixture: budgets 120 < 512 retain
monotonically many answers and the 512-byte result fits. -/
theorem dnsBinaryTruncate_ok_witness :
    dnsBinaryTruncate truncMsg 120 truncIdx true ≤ dnsBinaryTruncate truncMsg 512 truncIdx true ∧
    msgLen (resyncAt truncMsg truncIdx true (dnsBinaryTruncate truncMsg 512 truncIdx true)) ≤ 512 :=
  ⟨(dnsBinaryTruncate_ok truncMsg truncIdx true 512 120 512).1 (by decide),
   (dnsBinaryTruncate_ok truncMsg truncIdx true 512 120 512).2 (by decide)⟩

/-- Counterexample for C2 as frozen: at budget 0 the truncation engine
retains zero answers, yet the serialized message (38 bytes of header and
question) still exceeds the budget, so "for every budget the serialized
message never exceeds that budget" is false. -/
theorem dnsBinaryTruncate_budget_counterexample :
    dnsBinaryTruncate truncMsg 0 truncIdx true = 0 ∧
    ¬ msgLen (resyncAt truncMsg truncIdx true (dnsBinaryTruncate truncMsg 0 truncIdx true)) ≤ 0 := by
  decide

/-- An exact-lookup hit names a non-wildcard table pattern equal to the
service name. -/
theorem lookupExact_mem {tbl : List (String × Nat)} {n : String} {d : Nat}
    (h : lookupExact tbl n = some d) :
    ∃ p, (p, d) ∈ tbl ∧ p = n ∧ stripStar p = none := by
  induction tbl with
  | nil => simp [lookupExact] at h
  | cons x xs ih =>
    rcases x with ⟨p, e⟩
    simp only [lookupExact] at h
    by_cases hc : stripStar p = none ∧ p = n
    · rw [if_pos hc] at h
      cases h
      exact ⟨p, List.mem_cons_self _ _, hc.2, hc.1⟩
    · rw [if_neg hc] at h
      rcases ih h with ⟨q, hq, hqn, hqs⟩
      exact ⟨q, List.mem_cons_of_mem _ hq, hqn, hqs⟩

/-- An exact-lookup miss means no non-wildcard table pattern equals the
service name. -/
theorem lookupExact_none {tbl : List (String × Nat)} {n : String}
    (h : lookupExact tbl n = none) :
    ∀ p d, (p, d) ∈ tbl → ¬(stripStar p = none ∧ p = n) := by
  induction tbl with
  | nil => intro p d hp; cases hp
  | cons x xs ih =>
    rcases x with ⟨q, e⟩
    simp only [lookupExact] at h
    by_cases hc : stripStar q = none ∧ q = n
    · rw [if_pos hc] at h; cases h
    · rw [if_neg hc] at h
      intro p d hp
      rcases List.mem_cons.1 hp with heq | hm
      · cases heq; exact hc
      · exact ih h p d hm

/-- A wildcard hit exposes the pattern's stem, its match against the name
and its length. -/
theorem wildMatch_some {n p : String} {l : Nat} (h : wildMatch n p = some l) :
    ∃ pre, stripStar p = some pre ∧ pre.data.isPrefixOf n.data ∧
      pre.data.length = l := by
  unfold wildMatch at h
  cases hs : stripStar p with
  | none => rw [hs] at h; cases h
  | some pre =>
    rw [hs] at h
    dsimp only at h
    by_cases hp : pre.data.isPrefixOf n.data = true
    · rw [if_pos hp] at h
      cases h
      exact ⟨pre, rfl, hp, rfl⟩
    · rw [if_neg hp] at h
      cases h

/-- A wildcard-scan miss means no table pattern wildcard-matches. -/
theorem bestWild_none_aux {tbl : List (String × Nat)} {n : String}
    (h : bestWild tbl n = none) :
    ∀ q e, (q, e) ∈ tbl → wildMatch n q = none := by
  induction tbl with
  | nil => intro q e hq; cases hq
  | cons x xs ih =>
    rcases x with ⟨p, d⟩
    simp only [bestWild] at h
    cases hw : wildMatch n p with
    | none =>
      rw [hw] at h
      intro q e hq
      rcases List.mem_cons.1 hq with heq | hm
      · cases heq; exact hw
      · exact ih h q e hm
    | some l0 =>
      rw [hw] at h
      dsimp only at h
      cases hr : bestWild xs n with
      | none => rw [hr] at h; cases h
      | some r =>
        rcases r with ⟨a, b⟩
        rw [hr] at h
        dsimp only at h
        by_cases hc : l0 < a
        · rw [if_pos hc] at h; cases h
        · rw [if_neg hc] at h; cases h

/-- The selected wildcard entry is a matching table pattern whose stem
length bounds every other match (longest-match maximality). -/
theorem bestWild_spec {tbl : List (String × Nat)} {n : String} {len d : Nat}
    (h : bestWild tbl n = some (len, d)) :
    (∃ p pre, (p, d) ∈ tbl ∧ stripStar p = some pre ∧
      pre.data.isPrefixOf n.data ∧ pre.data.length = len) ∧
    ∀ q e l, (q, e) ∈ tbl → wildMatch n q = some l → l ≤ len := by
  induction tbl generalizing len d with
  | nil => simp [bestWild] at h
  | cons x xs ih =>
    rcases x with ⟨p, e⟩
    simp only [bestWild] at h
    cases hw : wildMatch n p with
    | none =>
      rw [hw] at h
      rcases ih h with ⟨⟨q, pre, hq, hqs, hqp, hql⟩, hmax⟩
      refine ⟨⟨q, pre, List.mem_cons_of_mem _ hq, hqs, hqp, hql⟩, ?_⟩
      intro q' e' l hq' hwq'
      rcases List.mem_cons.1 hq' with heq | hm
      · cases heq
        rw [hw] at hwq'
        cases hwq'
      · exact hmax q' e' l hm hwq'
    | some l0 =>
      rw [hw] at h
      dsimp only at h
      rcases wildMatch_some hw with ⟨pre0, hs0, hpre0, hlen0⟩
      cases hr : bestWild xs n with
      | none =>
        rw [hr] at h
        cases h
        refine ⟨⟨p, pre0, List.mem_cons_self _ _, hs0, hpre0, hlen0⟩, ?_⟩
        intro q' e' l hq' hwq'
        rcases List.mem_cons.1 hq' with heq | hm
        · cases heq
          rw [hw] at hwq'
          cases hwq'
          exact Nat.le_refl _
        · have hnone := bestWild_none_aux hr q' e' hm
          rw [hnone] at hwq'
          cases hwq'
      | some r =>
        rcases r with ⟨len', d'⟩
        rw [hr] at h
        dsimp only at h
        rcases ih hr with ⟨⟨q, pre, hq, hqs, hqp, hql⟩, hmax⟩
        by_cases hcmp : l0 < len'
        · rw [if_pos hcmp] at h
          cases h
          refine ⟨⟨q, pre, List.mem_cons_of_mem _ hq, hqs, hqp, hql⟩, ?_⟩
          intro q' e' l hq' hwq'
          rcases List.mem_cons.1 hq' with heq | hm
          · cases heq
            rw [hw] at hwq'
            cases hwq'
            exact Nat.le_of_lt hcmp
          · exact hmax q' e' l hm hwq'
        · rw [if_neg hcmp] at h
          cases h
          refine ⟨⟨p, pre0, List.mem_cons_self _ _, hs0, hpre0, hlen0⟩, ?_⟩
          intro q' e' l hq' hwq'
          rcases List.mem_cons.1 hq' with heq | hm
          · cases heq
            rw [hw] at hwq'
            cases hwq'
            exact Nat.le_refl _
          · exact Nat.le_trans (hmax q' e' l hm hwq') (Nat.le_of_not_lt hcmp)

/-- Claim C7: `getTTLForService` returns the duration of an exactly-matching
non-wildcard pattern when one exists; otherwise the duration of a matching
trailing-wildcard pattern whose stripped stem is longest among all matches;
and when no pattern matches at all it returns the zone default TTL together
with a not-found indicator. -/
theorem getTTLForService_ok (cfg : RouterConfig) (n : String) :
    (∀ d, lookupExact cfg.ttlOverrides n = some d →
      getTTLForService cfg n = (d, true) ∧
      ∃ p, (p, d) ∈ cfg.ttlOverrides ∧ p = n ∧ stripStar p = none) ∧
    (∀ len d, lookupExact cfg.ttlOverrides n = none →
      bestWild cfg.ttlOverrides n = some (len, d) →
      getTTLForService cfg n = (d, true) ∧
      (∃ p pre, (p, d) ∈ cfg.ttlOverrides ∧ stripStar p = some pre ∧
        pre.data.isPrefixOf n.data ∧ pre.data.length = len) ∧
      ∀ q e l, (q, e) ∈ cfg.ttlOverrides → wildMatch n q = some l → l ≤ len) ∧
    (lookupExact cfg.ttlOverrides n = none →
      bestWild cfg.ttlOverrides n = none →
      getTTLForService cfg n = (cfg.nodeTTL, false) ∧
      ∀ p d, (p, d) ∈ cfg.ttlOverrides →
        ¬(stripStar p = none ∧ p = n) ∧ wildMatch n p = none) := by
  refine ⟨?_, ?_, ?_⟩
  · intro d hx
    refine ⟨?_, lookupExact_mem hx⟩
    simp [getTTLForService, hx]
  · intro len d hx hw
    refine ⟨?_, (bestWild_spec hw).1, (bestWild_spec hw).2⟩
    simp [getTTLForService, hx, hw]
  · intro hx hw
    refine ⟨?_, ?_⟩
    · simp [getTTLForService, hx, hw]
    · intro p d hp
      exact ⟨lookupExact_none hx p d hp, bestWild_none_aux hw p d hp⟩

/-- Witness for C7 on the TTL-lookup test table: `bart` takes the wildcard
pattern's duration, via the wildcard branch of the lookup theorem. -/
theorem getTTLForService_ok_witness : getTTLForService ttlCfg "bart" = (2, true) :=
  ((getTTLForService_ok ttlCfg "bart").2.1 3 2 (by decide) (by decide)).1

/-- Claim C4: whenever the Label Parser classifies the question as
Malformed — in particular for addr/virtual hex ids that do not decode to
exactly 4 or 16 bytes and for reverse-lookup names with an invalid or
out-of-range octet — `handleRequest` returns an authoritative NXDOMAIN
response with the zone SOA in the authority section; classification is a
total function, so it never raises an error. -/
theorem malformed_gives_nxdomain (cfg : RouterConfig) (backend : Backend)
    (rec : Recursor) (now : Nat) (req : Msg) :
    (parseQuery cfg (req.question.qlabels.map strLower) req.question.qtype
        = .malformed →
      (handleRequest cfg backend rec now false req).header.rcode = rcodeNameError ∧
      (handleRequest cfg backend rec now false req).header.authoritative = true ∧
      (handleRequest cfg backend rec now false req).answer = [] ∧
      (handleRequest cfg backend rec now false req).ns = [soaRR cfg cfg.domain now]) ∧
    (∀ md hx dc qt b, hexDecode hx = some b → b.length ≠ 4 → b.length ≠ 16 →
      parseOwned md [hx, "addr", dc] qt = .malformed ∧
      parseOwned md [hx, "virtual", dc] qt = .malformed) ∧
    (∀ md hx dc qt, hexDecode hx = none →
      parseOwned md [hx, "addr", dc] qt = .malformed ∧
      parseOwned md [hx, "virtual", dc] qt = .malformed) ∧
    (∀ o1 o2 o3 o4, collectSome decodeOctet [o1, o2, o3, o4] = none →
      parseArpa [o1, o2, o3, o4, "in-addr", "arpa"] = .malformed) := by
  refine ⟨?_, ?_, ?_, ?_⟩
  · intro h
    simp only [handleRequest, h]
    simp [finalizeTransport, mkResponse, composeCore, nxdomainCore, respHeader,
      rcodeNameError]
  · intro md hx dc qt b hb h4 h16
    have hno : ¬(b.length = 4 ∨ b.length = 16) := fun hc => hc.elim h4 h16
    constructor <;> simp [parseOwned, classifyHexId, hb, hno]
  · intro md hx dc qt hb
    constructor <;> simp [parseOwned, classifyHexId, hb]
  · intro o1 o2 o3 o4 hc
    simp [parseArpa, hc]

/-- Witness for C4: the test's too-short hex id `c000.addr.dc1.consul`
classifies as Malformed and yields authoritative NXDOMAIN with the zone SOA
in authority. -/
theorem malformed_gives_nxdomain_witness :
    (handleRequest testCfg noBackend noRecursor 99 false
        (mkQuery ["c000", "addr", "dc1", "consul"] .a)).header.rcode = rcodeNameError ∧
    (handleRequest testCfg noBackend noRecursor 99 false
        (mkQuery ["c000", "addr", "dc1", "consul"] .a)).ns
      = [soaRR testCfg testCfg.domain 99] :=
  ⟨((malformed_gives_nxdomain testCfg noBackend noRecursor 99
      (mkQuery ["c000", "addr", "dc1", "consul"] .a)).1 (by decide)).1,
   ((malformed_gives_nxdomain testCfg noBackend noRecursor 99
      (mkQuery ["c000", "addr", "dc1", "consul"] .a)).1 (by decide)).2.2.2⟩

/-- Claim C5: when the catalog backend reports no data for a valid
owned-domain lookup — a service, node, workload or virtual query — the
response has the success response code, the Authoritative flag set, an
empty answer section and the zone SOA in the authority section, never
NXDOMAIN. -/
theorem nodata_gives_soa_success (cfg : RouterConfig) (backend : Backend)
    (rec : Recursor) (now : Nat) (req : Msg) :
    (∀ n ten md,
      parseQuery cfg (req.question.qlabels.map strLower) req.question.qtype
          = .service n ten md →
      backend.fetchEndpoints n ten .service = .error .noData →
      (handleRequest cfg backend rec now false req).header.rcode = rcodeSuccess ∧
      (handleRequest cfg backend rec now false req).header.authoritative = true ∧
      (handleRequest cfg backend rec now false req).answer = [] ∧
      (handleRequest cfg backend rec now false req).ns = [soaRR cfg cfg.domain now] ∧
      (handleRequest cfg backend rec now false req).header.rcode ≠ rcodeNameError) ∧
    (∀ n ten md,
      parseQuery cfg (req.question.qlabels.map strLower) req.question.qtype
          = .node n ten md →
      backend.fetchEndpoints n ten .node = .error .noData →
      (handleRequest cfg backend rec now false req).header.rcode = rcodeSuccess ∧
      (handleRequest cfg backend rec now false req).header.authoritative = true ∧
      (handleRequest cfg backend rec now false req).answer = [] ∧
      (handleRequest cfg backend rec now false req).ns = [soaRR cfg cfg.domain now]) ∧
    (∀ n p ten,
      parseQuery cfg (req.question.qlabels.map strLower) req.question.qtype
          = .workload n p ten →
      backend.fetchWorkload n p = .error .noData →
      (handleRequest cfg backend rec now false req).header.rcode = rcodeSuccess ∧
      (handleRequest cfg backend rec now false req).header.authoritative = true ∧
      (handleRequest cfg backend rec now false req).answer = [] ∧
      (handleRequest cfg backend rec now false req).ns = [soaRR cfg cfg.domain now]) ∧
    (∀ b,
      parseQuery cfg (req.question.qlabels.map strLower) req.question.qtype
          = .virtualIP b →
      backend.fetchVirtualIP b = .error .noData →
      (handleRequest cfg backend rec now false req).header.rcode = rcodeSuccess ∧
      (handleRequest cfg backend rec now false req).header.authoritative = true ∧
      (handleRequest cfg backend rec now false req).answer = [] ∧
      (handleRequest cfg backend rec now false req).ns = [soaRR cfg cfg.domain now]) := by
  refine ⟨?_, ?_, ?_, ?_⟩
  · intro n ten md hp hb
    simp only [handleRequest, hp]
    simp [finalizeTransport, mkResponse, composeCore, serviceCore, hb, noDataCore,
      respHeader, rcodeSuccess, rcodeNameError]
  · intro n ten md hp hb
    simp only [handleRequest, hp]
    simp [finalizeTransport, mkResponse, composeCore, nodeCore, hb, noDataCore,
      respHeader, rcodeSuccess]
  · intro n p ten hp hb
    simp only [handleRequest, hp]
    simp [finalizeTransport, mkResponse, composeCore, workloadCore, hb, noDataCore,
      respHeader, rcodeSuccess]
  · intro b hp hb
    simp only [handleRequest, hp]
    simp [finalizeTransport, mkResponse, composeCore, virtualCore, hb, noDataCore,
      respHeader, rcodeSuccess]

/-- Witness for C5: the test's `foo.service.consul.` lookup over a no-data
backend yields authoritative success with the zone SOA in authority. -/
theorem nodata_gives_soa_success_witness :
    (handleRequest testCfg noDataBackend noRecursor 99 false
        (mkQuery ["foo", "service", "consul"] .a)).header.rcode = rcodeSuccess ∧
    (handleRequest testCfg noDataBackend noRecursor 99 false
        (mkQuery ["foo", "service", "consul"] .a)).ns
      = [soaRR testCfg testCfg.domain 99] :=
  ⟨((nodata_gives_soa_success testCfg noDataBackend noRecursor 99
      (mkQuery ["foo", "service", "consul"] .a)).1 "foo" {} ["consul"]
      (by decide) rfl).1,
   ((nodata_gives_soa_success testCfg noDataBackend noRecursor 99
      (mkQuery ["foo", "service", "consul"] .a)).1 "foo" {} ["consul"]
      (by decide) rfl).2.2.2.1⟩

/-- Claim C6: for a question outside the owned and alternate domains, when
no recursors are configured, `handleRequest` answers Refused itself,
echoing the fully-qualified original question, and the recursor capability
is never invoked — the result is the same whatever recursor is wired in. -/
theorem unconfigured_recursor_refused (cfg : RouterConfig) (backend : Backend)
    (rec1 rec2 : Recursor) (now : Nat) (req : Msg)
    (hrec : cfg.recursors = [])
    (hp : parseQuery cfg (req.question.qlabels.map strLower) req.question.qtype
      = .foreign) :
    (handleRequest cfg backend rec1 now false req).header.rcode = rcodeRefused ∧
    (handleRequest cfg backend rec1 now false req).question = qualifyQ req.question ∧
    (handleRequest cfg backend rec1 now false req).answer = [] ∧
    (handleRequest cfg backend rec1 now false req).ns = [] ∧
    (handleRequest cfg backend rec1 now false req).extra = [] ∧
    handleRequest cfg backend rec1 now false req
      = handleRequest cfg backend rec2 now false req := by
  simp only [handleRequest, hp, hrec]
  simp [refusedResponse, respHeader, rcodeRefused]

/-- Witness for C6: the test's `google.com` type-A query with no recursors
configured is Refused, independently of the recursor implementation. -/
theorem unconfigured_recursor_refused_witness :
    (handleRequest testCfg noBackend noRecursor 99 false
        (mkQuery ["google", "com"] .a)).header.rcode = rcodeRefused ∧
    handleRequest testCfg noBackend noRecursor 99 false (mkQuery ["google", "com"] .a)
      = handleRequest testCfg noBackend googleRecursor 99 false
          (mkQuery ["google", "com"] .a) :=
  ⟨(unconfigured_recursor_refused testCfg noBackend noRecursor googleRecursor 99
      (mkQuery ["google", "com"] .a) rfl (by decide)).1,
   (unconfigured_recursor_refused testCfg noBackend noRecursor googleRecursor 99
      (mkQuery ["google", "com"] .a) rfl (by decide)).2.2.2.2.2⟩

/-- Claim C9 (amended): `RecursionAvailable` in responses the router
composes itself — every non-foreign classification, the refused path, and a
failed recursion — reflects whether a recursor is configured; but a
successfully relayed upstream response is returned verbatim, so there it
carries the upstream's flag instead. -/
theorem recursionAvailable_policy (cfg : RouterConfig) (backend : Backend)
    (rec : Recursor) (now : Nat) (req : Msg) :
    (parseQuery cfg (req.question.qlabels.map strLower) req.question.qtype
        ≠ .foreign →
      (handleRequest cfg backend rec now false req).header.recursionAvailable
        = !cfg.recursors.isEmpty) ∧
    (parseQuery cfg (req.question.qlabels.map strLower) req.question.qtype
        = .foreign → cfg.recursors = [] →
      (handleRequest cfg backend rec now false req).header.recursionAvailable
        = !cfg.recursors.isEmpty) ∧
    (parseQuery cfg (req.question.qlabels.map strLower) req.question.qtype
        = .foreign → cfg.recursors ≠ [] → ∀ m, rec req = .ok m →
      handleRequest cfg backend rec now false req = m) ∧
    (parseQuery cfg (req.question.qlabels.map strLower) req.question.qtype
        = .foreign → cfg.recursors ≠ [] → ∀ e, rec req = .error e →
      (handleRequest cfg backend rec now false req).header.recursionAvailable
        = true) := by
  refine ⟨?_, ?_, ?_, ?_⟩
  · intro hne
    cases hp : parseQuery cfg (req.question.qlabels.map strLower) req.question.qtype <;>
      first
        | exact absurd hp hne
        | (simp only [handleRequest, hp]
           simp [finalizeTransport, mkResponse, respHeader])
  · intro hp hrec
    simp only [handleRequest, hp, hrec]
    simp [refusedResponse, respHeader, hrec]
  · intro hp hne m hm
    have hie : ¬(cfg.recursors.isEmpty = true) := by
      simpa [List.isEmpty_iff] using hne
    simp only [handleRequest, hp]
    rw [if_neg hie, hm]
  · intro hp hne e hm
    have hie : ¬(cfg.recursors.isEmpty = true) := by
      simpa [List.isEmpty_iff] using hne
    have hie' : cfg.recursors.isEmpty = false := by
      simpa using hie
    simp only [handleRequest, hp]
    rw [if_neg hie, hm]
    simp [recursionFailResponse, respHeader, hie']

/-- Witness for C9: with a recursor configured, an owned-domain (addr)
response carries `RecursionAvailable` exactly when the recursor list is
non-empty. -/
theorem recursionAvailable_policy_witness :
    (handleRequest testCfgRec noBackend noRecursor 99 false
        (mkQuery ["c000020a", "addr", "dc1", "consul"] .a)).header.recursionAvailable
      = !testCfgRec.recursors.isEmpty :=
  (recursionAvailable_policy testCfgRec noBackend noRecursor 99
    (mkQuery ["c000020a", "addr", "dc1", "consul"] .a)).1 (by decide)

/-- Counterexample for C9 as frozen: a recursor is configured, the upstream
relay succeeds with its own `RecursionAvailable` off, and the router
returns the relayed message verbatim — so the final response does not set
the flag even though a recursor is configured. -/
theorem recursionAvailable_counterexample :
    testCfgRec.recursors ≠ [] ∧
    (handleRequest testCfgRec noBackend googleRecursor 99 false
        (mkQuery ["google", "com"] .a)).header.recursionAvailable = false := by
  constructor
  · decide
  · rfl

/-- Claim C1 (amended): for an addr query whose hex id carries one address
family while the question requests the other, the answer section is empty
and the additional section contains exactly one address record of the
embedded family for the query name.  For a virtual query the mismatch
instead produces the no-data outcome — empty answer, empty additional
section and the zone SOA in authority — as the test for an A query over an
IPv6 virtual address requires. -/
theorem family_mismatch_behaviour (cfg : RouterConfig) (backend : Backend)
    (rec : Recursor) (now : Nat) (req : Msg) :
    (∀ b, parseQuery cfg (req.question.qlabels.map strLower) req.question.qtype
        = .addr b → b.length = 4 → req.question.qtype = .aaaa →
      (handleRequest cfg backend rec now false req).answer = [] ∧
      (handleRequest cfg backend rec now false req).extra
        = [{ name := joinName (req.question.qlabels.map strLower), rtype := .a
             ttl := cfg.nodeTTL, rdata := .a b }]) ∧
    (∀ b, parseQuery cfg (req.question.qlabels.map strLower) req.question.qtype
        = .addr b → b.length = 16 → req.question.qtype = .a →
      (handleRequest cfg backend rec now false req).answer = [] ∧
      (handleRequest cfg backend rec now false req).extra
        = [{ name := joinName (req.question.qlabels.map strLower), rtype := .aaaa
             ttl := cfg.nodeTTL, rdata := .aaaa b }]) ∧
    (∀ b r loc bs,
      parseQuery cfg (req.question.qlabels.map strLower) req.question.qtype
        = .virtualIP b →
      backend.fetchVirtualIP b = .ok r → r.node = some loc →
      parseIP loc.address = some (.v6 bs) → req.question.qtype = .a →
      (handleRequest cfg backend rec now false req).answer = [] ∧
      (handleRequest cfg backend rec now false req).extra = [] ∧
      (handleRequest cfg backend rec now false req).ns
        = [soaRR cfg cfg.domain now]) ∧
    (∀ b r loc bs,
      parseQuery cfg (req.question.qlabels.map strLower) req.question.qtype
        = .virtualIP b →
      backend.fetchVirtualIP b = .ok r → r.node = some loc →
      parseIP loc.address = some (.v4 bs) → req.question.qtype = .aaaa →
      (handleRequest cfg backend rec now false req).answer = [] ∧
      (handleRequest cfg backend rec now false req).extra = [] ∧
      (handleRequest cfg backend rec now false req).ns
        = [soaRR cfg cfg.domain now]) := by
  refine ⟨?_, ?_, ?_, ?_⟩
  · intro b hp h4 hqt
    simp only [handleRequest, hp]
    simp [finalizeTransport, mkResponse, composeCore, addrCore, bytesToIP, h4, hqt,
      wantsFamily, addressRR]
  · intro b hp h16 hqt
    have hne : b.length ≠ 4 := by rw [h16]; decide
    simp only [handleRequest, hp]
    simp [finalizeTransport, mkResponse, composeCore, addrCore, bytesToIP, hne, hqt,
      wantsFamily, addressRR]
  · intro b r loc bs hp hb hn hip hqt
    simp only [handleRequest, hp]
    simp [finalizeTransport, mkResponse, composeCore, virtualCore, hb, hn, hip, hqt,
      wantsFamily, noDataCore]
  · intro b r loc bs hp hb hn hip hqt
    simp only [handleRequest, hp]
    simp [finalizeTransport, mkResponse, composeCore, virtualCore, hb, hn, hip, hqt,
      wantsFamily, noDataCore]

/-- Witness for C1 (amended): the test's AAAA query over the IPv4 hex id
`c000020a` yields an empty answer and exactly one additional A record. -/
theorem family_mismatch_behaviour_witness :
    (handleRequest testCfg noBackend noRecursor 99 false
        (mkQuery ["c000020a", "addr", "dc1", "consul"] .aaaa)).answer = [] ∧
    (handleRequest testCfg noBackend noRecursor 99 false
        (mkQuery ["c000020a", "addr", "dc1", "consul"] .aaaa)).extra
      = [{ name := joinName (["c000020a", "addr", "dc1", "consul"].map strLower)
           rtype := .a, ttl := testCfg.nodeTTL, rdata := .a [192, 0, 2, 10] }] :=
  (family_mismatch_behaviour testCfg noBackend noRecursor 99
    (mkQuery ["c000020a", "addr", "dc1", "consul"] .aaaa)).1 [192, 0, 2, 10]
    (by decide) (by decide) (by decide)

/-- Counterexample for C1 as frozen: an A query for a virtual name whose
backend address is IPv6 gets no additional record at all (the response is
the no-data outcome with the zone SOA in authority), not "exactly one
address record of the other family". -/
theorem family_mismatch_counterexample :
    (handleRequest testCfg virtualV6Backend noRecursor 99 false
        (mkQuery ["20010db800010002cafe000000001337", "virtual", "dc1", "consul"]
          .a)).answer = [] ∧
    (handleRequest testCfg virtualV6Backend noRecursor 99 false
        (mkQuery ["20010db800010002cafe000000001337", "virtual", "dc1", "consul"]
          .a)).extra = [] ∧
    (handleRequest testCfg virtualV6Backend noRecursor 99 false
        (mkQuery ["20010db800010002cafe000000001337", "virtual", "dc1", "consul"]
          .a)).ns = [soaRR testCfg testCfg.domain 99] := by
  refine ⟨rfl, rfl, rfl⟩

/-- An address record carries exactly the TTL it was built with. -/
theorem addressRR_ttl (qn : String) (t : Nat) (ip : IPAddr) :
    (addressRR qn t ip).ttl = t := by
  cases ip <;> rfl

/-- Every record of the SRV synthesis for one result carries the TTL it
was built with. -/
theorem srvRecFor_ttl {cfg : RouterConfig} {backend : Backend} {qn : String}
    {t : Nat} {r : Result} {rr : RR}
    (h : rr ∈ (srvRecFor cfg backend qn t r).1 ++ (srvRecFor cfg backend qn t r).2) :
    rr.ttl = t := by
  cases hr : r.rtype with
  | virtualT =>
    cases hs : r.service with
    | none => simp [srvRecFor, hr, hs] at h
    | some sloc =>
      cases ha : aliasServiceName cfg sloc.address with
      | none =>
        simp [srvRecFor, hr, hs, ha] at h
        rw [h]
      | some p =>
        cases hi : resolveAliasAddr cfg backend maxAliasDepth p.1 p.2 with
        | none =>
          simp [srvRecFor, hr, hs, ha, hi] at h
          rw [h]
        | some ip =>
          simp [srvRecFor, hr, hs, ha, hi] at h
          rcases h with h | h
          · rw [h]
          · rw [h]
            exact addressRR_ttl _ _ ip
  | node =>
    cases hn : r.node with
    | none => simp [srvRecFor, hr, hn] at h
    | some loc =>
      cases hip : parseIP loc.address with
      | none =>
        simp [srvRecFor, hr, hn, hip] at h
        rw [h]
      | some ip =>
        simp [srvRecFor, hr, hn, hip] at h
        rcases h with h | h
        · rw [h]
        · rw [h]
          exact addressRR_ttl _ _ ip
  | workload =>
    cases hn : r.node with
    | none => simp [srvRecFor, hr, hn] at h
    | some loc =>
      cases hip : parseIP loc.address with
      | none =>
        simp [srvRecFor, hr, hn, hip] at h
        rw [h]
      | some ip =>
        simp [srvRecFor, hr, hn, hip] at h
        rcases h with h | h
        · rw [h]
        · rw [h]
          exact addressRR_ttl _ _ ip

/-- Every record of the address synthesis for one result carries the TTL
it was built with. -/
theorem addrRecFor_ttl {cfg : RouterConfig} {backend : Backend} {qn : String}
    {t : Nat} {qt : RType} {r : Result} {rr : RR}
    (h : rr ∈ (addrRecFor cfg backend qn t qt r).1
      ++ (addrRecFor cfg backend qn t qt r).2) :
    rr.ttl = t := by
  cases hio : resultIP cfg backend r with
  | none => simp [addrRecFor, hio] at h
  | some ip =>
    by_cases hw : wantsFamily qt ip = true <;>
      simp [addrRecFor, hio, hw] at h <;>
      (rw [h]; exact addressRR_ttl _ _ ip)

/-- Every record the Service/Node record synthesis produces carries the
TTL it was built with — SRV answers, their chained address extras, and the
family-split address records alike. -/
theorem serviceRecords_ttl {cfg : RouterConfig} {backend : Backend} {qn : String}
    {t : Nat} {qt : RType} {rs : List Result} {rr : RR}
    (h : rr ∈ (serviceRecords cfg backend qn t qt rs).1
      ++ (serviceRecords cfg backend qn t qt rs).2) :
    rr.ttl = t := by
  induction rs with
  | nil => simp [serviceRecords] at h
  | cons r rest ih =>
    simp only [serviceRecords, List.foldr_cons] at h ih
    rcases List.mem_append.1 h with h1 | h2
    · rcases List.mem_append.1 h1 with hp | hacc
      · by_cases hq : qt = .srv
        · simp only [hq, if_pos] at hp
          exact srvRecFor_ttl (List.mem_append.2 (Or.inl (by simpa using hp)))
        · rw [if_neg hq] at hp
          exact addrRecFor_ttl (List.mem_append.2 (Or.inl hp))
      · exact ih (List.mem_append.2 (Or.inl hacc))
    · rcases List.mem_append.1 h2 with hp | hacc
      · by_cases hq : qt = .srv
        · simp only [hq, if_pos] at hp
          exact srvRecFor_ttl (List.mem_append.2 (Or.inr (by simpa using hp)))
        · rw [if_neg hq] at hp
          exact addrRecFor_ttl (List.mem_append.2 (Or.inr hp))
      · exact ih (List.mem_append.2 (Or.inr hacc))

/-- Every synthesized NS record carries the configured node TTL. -/
theorem nsRecordsFor_ttl {cfg : RouterConfig} {md : List String}
    {rs : List Result} {rr : RR} (h : rr ∈ nsRecordsFor cfg md rs) :
    rr.ttl = cfg.nodeTTL := by
  rcases List.mem_filterMap.1 h with ⟨r, _, hmap⟩
  rcases Option.map_eq_some'.1 hmap with ⟨loc, _, hpeq⟩
  rw [← hpeq]

/-- Every A record backing a synthesized NS record carries the configured
node TTL. -/
theorem nsExtraFor_ttl {cfg : RouterConfig} {md : List String}
    {rs : List Result} {rr : RR} (h : rr ∈ nsExtraFor cfg md rs) :
    rr.ttl = cfg.nodeTTL := by
  rcases List.mem_filterMap.1 h with ⟨r, _, hbind⟩
  rcases Option.bind_eq_some.1 hbind with ⟨loc, _, hmap⟩
  rcases Option.map_eq_some'.1 hmap with ⟨ip, _, hpeq⟩
  rw [← hpeq]
  exact addressRR_ttl _ _ ip

/-- Claim C8 (amended): records synthesized by the addr, virtual, service,
node and SOA/NS composers always carry a config-derived TTL (the node TTL,
the per-service TTL lookup result, or the SOA minimum TTL); but workload
answers and PTR answers carry the zero TTL, not a config-derived value, as
the test suite pins down. -/
theorem composerTTL_policy (cfg : RouterConfig) (backend : Backend) (now : Nat)
    (qn : String) (qt : RType) :
    (∀ b rr, rr ∈ allRecs (addrCore cfg qn qt b) → rr.ttl = cfg.nodeTTL) ∧
    (∀ b rr, rr ∈ allRecs (virtualCore cfg backend now qn qt b) →
      rr.ttl = cfg.nodeTTL ∨ rr.ttl = cfg.soaMinttl) ∧
    (∀ n ten rr, rr ∈ allRecs (serviceCore cfg backend now qn qt n ten) →
      rr.ttl = (getTTLForService cfg n).1 ∨ rr.ttl = cfg.soaMinttl) ∧
    (∀ n ten rr, rr ∈ allRecs (nodeCore cfg backend now qn qt n ten) →
      rr.ttl = cfg.nodeTTL ∨ rr.ttl = cfg.soaMinttl) ∧
    (∀ md ten rr, rr ∈ allRecs (soaCore cfg backend now md ten) →
      rr.ttl = cfg.nodeTTL ∨ rr.ttl = cfg.soaMinttl) ∧
    (∀ md ten rr, rr ∈ allRecs (nsCore cfg backend now md ten) →
      rr.ttl = cfg.nodeTTL ∨ rr.ttl = cfg.soaMinttl) ∧
    (∀ n p ten rr,
      rr ∈ (workloadCore cfg backend now qn qt n p ten).answer
        ++ (workloadCore cfg backend now qn qt n p ten).extra → rr.ttl = 0) ∧
    (∀ ip rr, rr ∈ (ptrCore cfg backend now qn ip).answer → rr.ttl = 0) := by
  refine ⟨?_, ?_, ?_, ?_, ?_, ?_, ?_, ?_⟩
  · intro b rr hrr
    by_cases hw : wantsFamily qt (bytesToIP b) = true <;>
      simp [addrCore, hw, allRecs] at hrr <;>
      rw [hrr] <;> exact addressRR_ttl _ _ _
  · intro b rr hrr
    cases hb : backend.fetchVirtualIP b with
    | error e =>
      cases e <;> simp [virtualCore, hb, allRecs, noDataCore, servfailCore, soaRR] at hrr <;>
        simp [hrr, soaRR]
    | ok r =>
      cases hn : r.node with
      | none =>
        simp [virtualCore, hb, hn, allRecs, noDataCore, soaRR] at hrr
        simp [hrr, soaRR]
      | some loc =>
        cases hip : parseIP loc.address with
        | none =>
          simp [virtualCore, hb, hn, hip, allRecs, noDataCore, soaRR] at hrr
          simp [hrr, soaRR]
        | some ip =>
          by_cases hw : wantsFamily qt ip = true
          · simp [virtualCore, hb, hn, hip, hw, allRecs] at hrr
            rw [hrr]
            exact Or.inl (addressRR_ttl _ _ _)
          · by_cases hsrv : qt = .srv
            · subst hsrv
              simp [virtualCore, hb, hn, hip, hw, allRecs] at hrr
              rw [hrr]
              exact Or.inl (addressRR_ttl _ _ _)
            · simp [virtualCore, hb, hn, hip, hw, hsrv, allRecs, noDataCore] at hrr
              simp [hrr, soaRR]
  · intro n ten rr hrr
    cases hb : backend.fetchEndpoints n ten .service with
    | error e =>
      cases e <;> simp [serviceCore, hb, allRecs, noDataCore, servfailCore] at hrr <;>
        simp [hrr, soaRR]
    | ok rs =>
      simp only [serviceCore, hb, allRecs] at hrr
      have hrr' : rr ∈ (serviceRecords cfg backend qn (getTTLForService cfg n).1 qt rs).1
          ++ (serviceRecords cfg backend qn (getTTLForService cfg n).1 qt rs).2 := by
        simpa using hrr
      exact Or.inl (serviceRecords_ttl hrr')
  · intro n ten rr hrr
    cases hb : backend.fetchEndpoints n ten .node with
    | error e =>
      cases e <;> simp [nodeCore, hb, allRecs, noDataCore, servfailCore] at hrr <;>
        simp [hrr, soaRR]
    | ok rs =>
      simp only [nodeCore, hb, allRecs] at hrr
      have hrr' : rr ∈ (serviceRecords cfg backend qn cfg.nodeTTL qt rs).1
          ++ (serviceRecords cfg backend qn cfg.nodeTTL qt rs).2 := by
        simpa using hrr
      exact Or.inl (serviceRecords_ttl hrr')
  · intro md ten rr hrr
    cases hb : backend.fetchEndpoints "consul" ten .service with
    | error e =>
      cases e <;> simp [soaCore, hb, allRecs, noDataCore, servfailCore] at hrr <;>
        simp [hrr, soaRR]
    | ok rs =>
      simp only [soaCore, hb, allRecs] at hrr
      rcases List.mem_append.1 hrr with hm | hm
      · rcases List.mem_append.1 hm with hm' | hm'
        · rcases List.mem_singleton.1 hm' with rfl
          exact Or.inr rfl
        · exact Or.inl (nsRecordsFor_ttl hm')
      · exact Or.inl (nsExtraFor_ttl hm)
  · intro md ten rr hrr
    cases hb : backend.fetchEndpoints "consul" ten .service with
    | error e =>
      cases e <;> simp [nsCore, hb, allRecs, noDataCore, servfailCore] at hrr <;>
        simp [hrr, soaRR]
    | ok rs =>
      simp only [nsCore, hb, allRecs] at hrr
      rcases List.mem_append.1 hrr with hm | hm
      · rcases List.mem_append.1 hm with hm' | hm'
        · exact Or.inl (nsRecordsFor_ttl hm')
        · cases hm'
      · exact Or.inl (nsExtraFor_ttl hm)
  · intro n p ten rr hrr
    cases hb : backend.fetchWorkload n p with
    | error e =>
      cases e <;> simp [workloadCore, hb, noDataCore, servfailCore] at hrr
    | ok r =>
      cases hn : r.node with
      | none => simp [workloadCore, hb, hn, noDataCore] at hrr
      | some loc =>
        cases hip : parseIP loc.address with
        | none => simp [workloadCore, hb, hn, hip, noDataCore] at hrr
        | some ip =>
          by_cases hw : wantsFamily qt ip = true <;>
            simp [workloadCore, hb, hn, hip, hw] at hrr <;>
            rw [hrr] <;> exact addressRR_ttl _ _ _
  · intro ip rr hrr
    cases hb : backend.fetchRecordsByIp ip with
    | error e =>
      cases e <;> simp [ptrCore, hb, noDataCore, servfailCore] at hrr
    | ok rs =>
      simp only [ptrCore, hb] at hrr
      rcases List.mem_filterMap.1 hrr with ⟨r, _, hmap⟩
      rcases Option.map_eq_some'.1 hmap with ⟨loc, _, hpeq⟩
      rw [← hpeq]

/-- Witness for C8 (amended): the addr record of the `c000020a` query
carries the configured 123-second node TTL. -/
theorem composerTTL_policy_witness :
    (addressRR "c000020a.addr.dc1.consul." testCfg.nodeTTL
        (bytesToIP [192, 0, 2, 10])).ttl = testCfg.nodeTTL :=
  (composerTTL_policy testCfg noBackend 99 "c000020a.addr.dc1.consul." .a).1
    [192, 0, 2, 10] _ (by decide)

/-- Counterexample for C8 as frozen: the workload A answer of the
`api.port.foo.workload.consul.` test carries TTL 0 although the
configuration derives 123 (node TTL, no overrides), so "a synthesized
record's TTL is never absent" fails for workload answers. -/
theorem composerTTL_counterexample :
    (handleRequest testCfg workloadBackend noRecursor 99 false
        (mkQuery ["api", "port", "foo", "workload", "consul"] .a)).answer
      = [{ name := "api.port.foo.workload.consul.", rtype := .a, ttl := 0
           rdata := .a [1, 2, 3, 4] }] ∧
    testCfg.nodeTTL = 123 ∧ testCfg.ttlOverrides = [] := by
  refine ⟨rfl, rfl, rfl⟩

end Dns
